import Mathlib

/-!
Verification development for the feed-aggregator repository
(`src/feed_aggregator/main.py`).

The Python source is shallowly embedded below.  XML documents (as produced by
`lxml.etree.fromstring`) are modelled as a tree of elements; `Element.find`
returns the first direct child with a matching tag, and the xpath queries
used by the source (`//atom:entry | //item`, `.//category | .//atom:category`,
`/rss`, `/atom:feed`) are modelled by pre-order traversals, which yields the
same document order lxml reports.  Namespaced tags are written with their
source prefix (`atom:entry`, `content:encoded`); the `NAMESPACES` dictionary
of the source only expands those prefixes, so this is the same data.

Python exceptions abort the whole `main` call (the source installs no
handler), so every partial operation is embedded in `Except PyError` /
`Option` and an error anywhere aborts the embedded run.
-/

/-- Kinds of Python exception the embedded code can raise: `AttributeError`
(attribute access on `None`), `TypeError` (`parsedate_to_datetime(None)`,
comparing naive and aware datetimes), `ValueError` (unparseable dates) and
`AssertionError` (the `assert(feedtype is not None)` in `main`). -/
inductive PyError where
  | attributeError
  | typeError
  | valueError
  | assertionError
deriving DecidableEq, Repr

/-- Lifts an optional value into `Except`, raising `e` on `none`; this models
a Python operation that raises when applied to `None`. -/
def ofOpt (e : PyError) : Option α → Except PyError α
  | some a => .ok a
  | none => .error e

/-- The `Author` dataclass of the source.  Every field defaults to `None`;
Python does not enforce the `str` annotations, so each field is optional. -/
structure Author where
  name : Option String := none
  configname : Option String := none
  uri : Option String := none
  email : Option String := none
deriving DecidableEq, Repr

/-- The `FeedSource` dataclass of the source.  `.text` of an lxml element may
be `None`, so the string-annotated fields are optional here as well. -/
structure FeedSource where
  id_ : Option String
  title : Option String
  link : Option String
  author : Option Author := none
  updated : Option String := none
deriving DecidableEq, Repr

/-- The `Post` dataclass of the source. -/
structure Post where
  title : Option String
  published : Option String
  id_ : Option String
  link : Option String
  source : FeedSource
  summary : Option String := none
  content : Option String := none
deriving DecidableEq, Repr

/-- A parsed XML element: tag (with its source namespace prefix spelled out),
attributes, text content (`None` for an empty element) and child elements. -/
inductive XmlElem where
  | mk (tag : String) (attrs : List (String × String)) (text : Option String)
      (children : List XmlElem)

def XmlElem.tag : XmlElem → String
  | .mk t _ _ _ => t

def XmlElem.attrs : XmlElem → List (String × String)
  | .mk _ a _ _ => a

def XmlElem.text : XmlElem → Option String
  | .mk _ _ x _ => x

def XmlElem.children : XmlElem → List XmlElem
  | .mk _ _ _ cs => cs

/-- Models `element.find(tag)`: the first direct child whose tag matches,
or `None`. -/
def XmlElem.find (e : XmlElem) (t : String) : Option XmlElem :=
  e.children.find? (fun c => c.tag == t)

/-- Models `element.get(key)`: an attribute lookup returning `None` when the
attribute is absent. -/
def XmlElem.get (e : XmlElem) (k : String) : Option String :=
  e.attrs.lookup k

mutual
/-- All elements of the subtree rooted at `e`, in document (pre-order)
order; models an xpath `//tag` search from the document root. -/
def allElems : XmlElem → List XmlElem
  | .mk t a x cs => .mk t a x cs :: allElemsList cs

def allElemsList : List XmlElem → List XmlElem
  | [] => []
  | c :: cs => allElems c ++ allElemsList cs
end

/-- Proper descendants of `e` in document order; models a relative xpath
`.//tag` search below an element. -/
def XmlElem.descendants (e : XmlElem) : List XmlElem :=
  allElemsList e.children

/-! ### Dates

The source leans on three library functions: `email.utils.parsedate_to_datetime`
(RFC-822 dates), `datetime.isoformat` and `datetime.fromisoformat`.  They are
modelled here on the input shapes the feeds exercise: RFC-822 dates of the
form `Wdy, DD Mon YYYY HH:MM:SS ZONE` with a numeric, `GMT`/`UT`/`UTC` or
absent zone and a four-digit year, and ISO dates of the form
`YYYY-MM-DD[THH:MM:SS[Z|+HH:MM|-HH:MM]]`.  Other named zones, two-digit
years, fractional seconds and the rarer ISO spellings are treated as parse
failures.  Python compares timezone-aware datetimes by their UTC instant and
naive datetimes field-lexicographically; for valid dates both coincide with
comparing `instantSeconds` below, and mixing the two kinds raises
`TypeError`. -/

/-- A Python `datetime.datetime` restricted to whole seconds.  `tzOffset` is
the UTC offset in minutes; `none` is a naive datetime. -/
structure PyDateTime where
  year : Nat
  month : Nat
  day : Nat
  hour : Nat
  minute : Nat
  second : Nat
  tzOffset : Option Int
deriving DecidableEq, Repr

def isLeapYear (y : Nat) : Bool :=
  y % 4 == 0 && (y % 100 != 0 || y % 400 == 0)

def daysInMonth (y m : Nat) : Nat :=
  if m = 2 then (if isLeapYear y then 29 else 28)
  else if m = 4 ∨ m = 6 ∨ m = 9 ∨ m = 11 then 30
  else 31

def validOffset : Option Int → Bool
  | none => true
  | some off => decide (-1439 ≤ off ∧ off ≤ 1439)

/-- The range checks Python's `datetime` constructor performs. -/
def validDateTime (y mo d h mi s : Nat) (tz : Option Int) : Bool :=
  decide (1 ≤ y ∧ y ≤ 9999 ∧ 1 ≤ mo ∧ mo ≤ 12 ∧ 1 ≤ d ∧ d ≤ daysInMonth y mo
    ∧ h ≤ 23 ∧ mi ≤ 59 ∧ s ≤ 59) && validOffset tz

/-- Constructs a `datetime`, failing (as the Python constructor raises) on
out-of-range fields. -/
def mkDateTime (y mo d h mi s : Nat) (tz : Option Int) : Option PyDateTime :=
  if validDateTime y mo d h mi s tz then some ⟨y, mo, d, h, mi, s, tz⟩ else none

/-- Days since 1970-01-01 of the civil date `y-mo-d` (valid for `y ≥ 1`),
by the standard era/year-of-era decomposition of the Gregorian calendar. -/
def daysFromCivil (y mo d : Nat) : Int :=
  let yAdj := if mo ≤ 2 then y - 1 else y
  let era := yAdj / 400
  let yoe := yAdj % 400
  let mp := (mo + 9) % 12
  let doy := (153 * mp + 2) / 5 + (d - 1)
  let doe := yoe * 365 + yoe / 4 - yoe / 100 + doy
  (era * 146097 + doe : Int) - 719468

/-- Seconds since the epoch of the instant a datetime denotes (its UTC offset
subtracted); naive datetimes are read with offset zero, which matches their
field-lexicographic comparison on valid dates. -/
def PyDateTime.instantSeconds (dt : PyDateTime) : Int :=
  daysFromCivil dt.year dt.month dt.day * 86400
    + (dt.hour : Int) * 3600 + (dt.minute : Int) * 60 + (dt.second : Int)
    - 60 * dt.tzOffset.getD 0

def pad2 (n : Nat) : List Char :=
  [Nat.digitChar (n / 10 % 10), Nat.digitChar (n % 10)]

def pad4 (n : Nat) : List Char :=
  [Nat.digitChar (n / 1000 % 10), Nat.digitChar (n / 100 % 10),
   Nat.digitChar (n / 10 % 10), Nat.digitChar (n % 10)]

/-- Models `datetime.isoformat()`: `YYYY-MM-DDTHH:MM:SS` followed by
`+HH:MM`/`-HH:MM` for an aware datetime and by nothing for a naive one. -/
def PyDateTime.isoformat (dt : PyDateTime) : String :=
  let offsetChars : List Char :=
    match dt.tzOffset with
    | none => []
    | some off =>
      let sign := if off < 0 then '-' else '+'
      let a := off.natAbs
      sign :: (pad2 (a / 60) ++ ':' :: pad2 (a % 60))
  ⟨pad4 dt.year ++ '-' :: pad2 dt.month ++ '-' :: pad2 dt.day
    ++ 'T' :: pad2 dt.hour ++ ':' :: pad2 dt.minute ++ ':' :: pad2 dt.second
    ++ offsetChars⟩

/-- Models the source idiom `dt.isoformat()[0:-6] + 'Z'` (used at lines 55
and 65 of `main.py`): drop the last six characters of the ISO rendering and
append `Z`. -/
def isoformatSliceZ (dt : PyDateTime) : String :=
  let cs := dt.isoformat.data
  ⟨cs.take (cs.length - 6) ++ ['Z']⟩

def digitVal (c : Char) : Option Nat :=
  if c.isDigit then some (c.toNat - 48) else none

def nat2 (a b : Char) : Option Nat := do
  pure ((← digitVal a) * 10 + (← digitVal b))

def nat4 (a b c d : Char) : Option Nat := do
  pure (((← digitVal a) * 10 + (← digitVal b)) * 100 + ((← digitVal c) * 10 + (← digitVal d)))

/-- Parses what follows the seconds field of an ISO timestamp: nothing
(naive), `Z` (UTC) or a numeric `+HH:MM`/`-HH:MM` offset. -/
def parseOffsetTail : List Char → Option (Option Int)
  | [] => some none
  | ['Z'] => some (some 0)
  | [sgn, h1, h2, ':', m1, m2] => do
    let h ← nat2 h1 h2
    let m ← nat2 m1 m2
    if h ≤ 23 ∧ m ≤ 59 then
      if sgn = '+' then some (some ((h : Int) * 60 + m))
      else if sgn = '-' then some (some (-((h : Int) * 60 + m)))
      else none
    else none
  | _ => none

/-- Models `datetime.datetime.fromisoformat` on the shapes reaching it:
`YYYY-MM-DD`, optionally followed by `THH:MM:SS` and an offset tail. -/
def fromisoformat (s : String) : Option PyDateTime :=
  match s.data with
  | y1 :: y2 :: y3 :: y4 :: '-' :: mo1 :: mo2 :: '-' :: d1 :: d2 :: rest => do
    let y ← nat4 y1 y2 y3 y4
    let mo ← nat2 mo1 mo2
    let d ← nat2 d1 d2
    match rest with
    | [] => mkDateTime y mo d 0 0 0 none
    | 'T' :: h1 :: h2 :: ':' :: mi1 :: mi2 :: ':' :: s1 :: s2 :: tail => do
      let h ← nat2 h1 h2
      let mi ← nat2 mi1 mi2
      let sec ← nat2 s1 s2
      let tz ← parseOffsetTail tail
      mkDateTime y mo d h mi sec tz
    | _ => none
  | _ => none

def splitWordsAux : List Char → List Char → List (List Char)
  | [], acc => if acc.isEmpty then [] else [acc.reverse]
  | c :: cs, acc =>
    if c = ' ' then
      if acc.isEmpty then splitWordsAux cs [] else acc.reverse :: splitWordsAux cs []
    else splitWordsAux cs (c :: acc)

/-- Whitespace tokenisation, dropping empty tokens (Python `str.split()`). -/
def splitWords (cs : List Char) : List (List Char) :=
  splitWordsAux cs []

def splitOnColonAux : List Char → List Char → List (List Char)
  | [], acc => [acc.reverse]
  | c :: cs, acc =>
    if c = ':' then acc.reverse :: splitOnColonAux cs []
    else splitOnColonAux cs (c :: acc)

/-- Splitting on `:` keeping empty segments (Python `str.split(':')`). -/
def splitOnColon (cs : List Char) : List (List Char) :=
  splitOnColonAux cs []

def digitsToNatAux : List Char → Nat → Option Nat
  | [], acc => some acc
  | c :: cs, acc =>
    match digitVal c with
    | some v => digitsToNatAux cs (acc * 10 + v)
    | none => none

/-- A non-empty all-digit token read as a number (Python `int(tok)` on the
tokens RFC-822 parsing feeds it). -/
def digitsToNat : List Char → Option Nat
  | [] => none
  | c :: cs => digitsToNatAux (c :: cs) 0

def monthNum : List Char → Option Nat
  | ['J', 'a', 'n'] => some 1
  | ['F', 'e', 'b'] => some 2
  | ['M', 'a', 'r'] => some 3
  | ['A', 'p', 'r'] => some 4
  | ['M', 'a', 'y'] => some 5
  | ['J', 'u', 'n'] => some 6
  | ['J', 'u', 'l'] => some 7
  | ['A', 'u', 'g'] => some 8
  | ['S', 'e', 'p'] => some 9
  | ['O', 'c', 't'] => some 10
  | ['N', 'o', 'v'] => some 11
  | ['D', 'e', 'c'] => some 12
  | _ => none

/-- Parses `HH:MM:SS` (or `HH:MM`, with seconds zero). -/
def parseTimeToken (cs : List Char) : Option (Nat × Nat × Nat) :=
  match splitOnColon cs with
  | [h, m] => do pure ((← digitsToNat h), (← digitsToNat m), 0)
  | [h, m, s] => do pure ((← digitsToNat h), (← digitsToNat m), (← digitsToNat s))
  | _ => none

/-- Parses an RFC-822 zone token the way `parsedate_to_datetime` does:
`GMT`/`UT`/`UTC` mean UTC, `+HHMM`/`-HHMM` are numeric offsets, and the
special value `-0000` produces a naive datetime. -/
def parseZoneToken : List Char → Option (Option Int)
  | ['G', 'M', 'T'] => some (some 0)
  | ['U', 'T'] => some (some 0)
  | ['U', 'T', 'C'] => some (some 0)
  | [sgn, h1, h2, m1, m2] => do
    let h ← nat2 h1 h2
    let m ← nat2 m1 m2
    if h * 60 + m ≤ 1439 then
      if sgn = '+' then some (some ((h : Int) * 60 + m))
      else if sgn = '-' then
        if h = 0 ∧ m = 0 then some none
        else some (some (-((h : Int) * 60 + m)))
      else none
    else none
  | _ => none

/-- Models `email.utils.parsedate_to_datetime` on dates shaped
`[Wdy,] DD Mon YYYY HH:MM:SS [ZONE]` with a four-digit year; a missing zone
(or `-0000`) yields a naive datetime, and failures model the exceptions the
Python function raises. -/
def parsedate_to_datetime (s : String) : Option PyDateTime :=
  let toks := splitWords s.data
  let toks :=
    match toks with
    | t :: rest => if t.getLast? = some ',' then rest else t :: rest
    | [] => []
  match toks with
  | [dayT, monT, yearT, timeT] =>
    if yearT.length = 4 then do
      let d ← digitsToNat dayT
      let mo ← monthNum monT
      let y ← digitsToNat yearT
      let t ← parseTimeToken timeT
      mkDateTime y mo d t.1 t.2.1 t.2.2 none
    else none
  | [dayT, monT, yearT, timeT, zoneT] =>
    if yearT.length = 4 then do
      let d ← digitsToNat dayT
      let mo ← monthNum monT
      let y ← digitsToNat yearT
      let t ← parseTimeToken timeT
      let tz ← parseZoneToken zoneT
      mkDateTime y mo d t.1 t.2.1 t.2.2 tz
    else none
  | _ => none

/-- The first `if` of the source's `isoformat_to_rfc3339` (line 44-45): when
the character at index `-6` is `+` and the one at `-3` is `:`, the last six
characters are dropped. -/
def stripPlusOffset (cs : List Char) : List Char :=
  if cs[cs.length - 6]? = some '+' ∧ cs[cs.length - 3]? = some ':' then
    cs.take (cs.length - 6)
  else cs

/-- The second `if` of the source's `isoformat_to_rfc3339` (line 46-47): `Z`
is appended unless the string already ends in `Z`. -/
def ensureZ (cs : List Char) : List Char :=
  if cs.getLast? = some 'Z' then cs else cs ++ ['Z']

/-- The date normalizer of the source (`isoformat_to_rfc3339`, lines 43-48),
the two `if` statements composed.  Indexing a string shorter than six
characters raises `IndexError` in Python, modelled by `none`. -/
def isoformat_to_rfc3339 (s : String) : Option String :=
  if s.data.length < 6 then none
  else some ⟨ensureZ (stripPlusOffset s.data)⟩

/-- The canonical UTC timestamp form of the spec's glossary: exactly
`YYYY-MM-DDTHH:MM:SSZ` with decimal digits in the numeric positions. -/
def isCanonicalTimestamp (s : String) : Bool :=
  match s.data with
  | [y1, y2, y3, y4, '-', mo1, mo2, '-', d1, d2, 'T',
     h1, h2, ':', mi1, mi2, ':', s1, s2, 'Z'] =>
    y1.isDigit && y2.isDigit && y3.isDigit && y4.isDigit
      && mo1.isDigit && mo2.isDigit && d1.isDigit && d2.isDigit
      && h1.isDigit && h2.isDigit && mi1.isDigit && mi2.isDigit
      && s1.isDigit && s2.isDigit
  | _ => false

/-! ### Extraction (`extract_*` functions of `main.py`)

Each extractor is translated statement by statement; the `locals()` trick the
source uses to build the dataclass is made explicit as a structure literal
with exactly the fields the locals would contain.  A field access on a
missing element (`find(...)` returning `None`) raises `AttributeError`. -/

/-- Models `extract_rss_feedsource` (lines 50-60). -/
def extract_rss_feedsource (feed : XmlElem) : Except PyError FeedSource := do
  let channel ← ofOpt .attributeError (feed.find "channel")
  let titleEl ← ofOpt .attributeError (channel.find "title")
  let title := titleEl.text
  let updated ←
    match channel.find "lastBuildDate" with
    | some lb => do
      let t ← ofOpt .typeError lb.text
      let dt ← ofOpt .valueError (parsedate_to_datetime t)
      pure (some (isoformatSliceZ dt))
    | none => pure none
  let linkEl ← ofOpt .attributeError (channel.find "link")
  let link := linkEl.text
  .ok { id_ := link, title := title, link := link, updated := updated }

/-- Models `extract_rss_post` (lines 62-76). -/
def extract_rss_post (source : FeedSource) (entry : XmlElem) : Except PyError Post := do
  let titleEl ← ofOpt .attributeError (entry.find "title")
  let title := titleEl.text
  let pubEl ← ofOpt .attributeError (entry.find "pubDate")
  let pubText ← ofOpt .typeError pubEl.text
  let dt ← ofOpt .valueError (parsedate_to_datetime pubText)
  let published := isoformatSliceZ dt
  let cs ←
    match entry.find "content:encoded" with
    | some ce =>
      pure (ce.text, (entry.find "description").bind XmlElem.text)
    | none => do
      let de ← ofOpt .attributeError (entry.find "description")
      pure (de.text, (none : Option String))
  let idEl ← ofOpt .attributeError (entry.find "guid")
  let linkEl ← ofOpt .attributeError (entry.find "link")
  .ok { title := title, published := some published, id_ := idEl.text,
        link := linkEl.text, source := source, summary := cs.2, content := cs.1 }

/-- Models `extract_atom_feedsource` (lines 78-96). -/
def extract_atom_feedsource (feed : XmlElem) : Except PyError FeedSource := do
  let titleEl ← ofOpt .attributeError (feed.find "atom:title")
  let updatedEl ← ofOpt .attributeError (feed.find "atom:updated")
  let linkEl ← ofOpt .attributeError (feed.find "atom:link")
  let link := linkEl.get "href"
  let idEl ← ofOpt .attributeError (feed.find "atom:id")
  let author ←
    match feed.find "atom:author" with
    | some a => do
      let nameEl ← ofOpt .attributeError (a.find "atom:name")
      let uri := (a.find "atom:uri").bind XmlElem.text
      let email := (a.find "atom:email").bind XmlElem.text
      pure (some { name := nameEl.text, uri := uri, email := email : Author })
    | none => pure none
  .ok { id_ := idEl.text, title := titleEl.text, link := link,
        author := author, updated := updatedEl.text }

/-- Models `extract_atom_post` (lines 98-112). -/
def extract_atom_post (source : FeedSource) (entry : XmlElem) : Except PyError Post := do
  let titleEl ← ofOpt .attributeError (entry.find "atom:title")
  let title := titleEl.text
  let pubEl ← ofOpt .attributeError
    (match entry.find "atom:published" with
     | some e => some e
     | none => entry.find "atom:updated")
  let published := pubEl.text
  let content := (entry.find "atom:content").bind XmlElem.text
  let summary := (entry.find "atom:summary").bind XmlElem.text
  let idEl ← ofOpt .attributeError (entry.find "atom:id")
  let linkEl ← ofOpt .attributeError (entry.find "atom:link")
  .ok { title := title, published := published, id_ := idEl.text,
        link := linkEl.get "href", source := source, summary := summary,
        content := content }

/-! ### Filters (`matches_category`, `matches_posts`) -/

/-- An inclusion policy as loaded from YAML: an ordered list of specs, each
an ordered mapping of keys to values (Python dicts iterate in insertion
order, so an association list is the same data). -/
abbrev Policy := List (List (String × String))

/-- The category elements of an entry, in document order: the xpath query
`.//category | .//atom:category` of `matches_category`. -/
def categoryElems (entry : XmlElem) : List XmlElem :=
  entry.descendants.filter (fun c => c.tag == "category" || c.tag == "atom:category")

/-- One key/value pair of a category spec checked against one category
element: the key `text` is compared with the element text, any other key
with that attribute's value (lines 121-126). -/
def pairMatches (postcat : XmlElem) (kv : String × String) : Bool :=
  if kv.1 = "text" then postcat.text == some kv.2
  else postcat.get kv.1 == some kv.2

/-- Models `matches_category` (lines 114-130): some spec has all its
key/value pairs matching the same category element (the source's
`for`/`for`/`for`-`else` with `break`). -/
def matches_category (spec : Option Policy) (entry : XmlElem) : Bool :=
  match spec with
  | none => false
  | some l =>
    l.any (fun allowed =>
      (categoryElems entry).any (fun postcat => allowed.all (pairMatches postcat)))

/-- Models `matches_posts` (lines 132-142): some pair of some spec names a
child element whose text equals the given value. -/
def matches_posts (spec : Option Policy) (entry : XmlElem) : Bool :=
  match spec with
  | none => false
  | some l =>
    l.any (fun allowed =>
      allowed.any (fun kv =>
        match entry.find kv.1 with
        | some element => element.text == some kv.2
        | none => false))

/-! ### The aggregation driver (`main`, lines 185-224)

Fetching, YAML loading, the `--name` filter and the rendering calls are the
out-of-scope collaborators; the model receives each configured feed's parsed
document directly.  The loop body, the per-entry filter decision and the
final sort/reverse are translated statement by statement. -/

/-- One feed's configuration record: its name and optional `category` and
`posts` policies. -/
structure FeedConfig where
  name : String
  category : Option Policy := none
  posts : Option Policy := none

/-- A configured feed together with its (already fetched and parsed)
document. -/
structure FeedInput where
  config : FeedConfig
  doc : XmlElem

inductive FeedType where
  | rss
  | atom
deriving DecidableEq, Repr

/-- Models lines 200-207: `xpath('/rss')` and `xpath('/atom:feed')` test the
root element's tag (a document has one root, so at most one matches); if
neither matches, `assert(feedtype is not None)` raises `AssertionError`. -/
def detectFeed (doc : XmlElem) : Except PyError (FeedType × FeedSource) :=
  if doc.tag = "rss" then do
    let fs ← extract_rss_feedsource doc
    .ok (.rss, fs)
  else if doc.tag = "atom:feed" then do
    let fs ← extract_atom_feedsource doc
    .ok (.atom, fs)
  else .error .assertionError

/-- Models lines 208-211: back-filling `configname` on the source's author,
or synthesising an author carrying only `configname`. -/
def backfillConfigname (fs : FeedSource) (nm : String) : FeedSource :=
  match fs.author with
  | some a => { fs with author := some { a with configname := some nm } }
  | none => { fs with author := some { configname := some nm } }

/-- The candidate entries of a document: the combined query
`//atom:entry | //item` (line 213), in document order. -/
def feedEntries (doc : XmlElem) : List XmlElem :=
  (allElems doc).filter (fun e => e.tag == "atom:entry" || e.tag == "item")

/-- The per-entry inclusion decision of lines 214-218: include-all when
neither policy is configured, otherwise either policy matching suffices. -/
def shouldInclude (cfg : FeedConfig) (entry : XmlElem) : Bool :=
  (cfg.category.isNone && cfg.posts.isNone)
    || matches_category cfg.category entry
    || matches_posts cfg.posts entry

/-- The dialect dispatch of lines 220-221. -/
def extractPost (ft : FeedType) (fs : FeedSource) (entry : XmlElem) : Except PyError Post :=
  match ft with
  | .rss => extract_rss_post fs entry
  | .atom => extract_atom_post fs entry

/-- The entry loop of lines 215-221: filtered entries are extracted in order
and appended; an extraction exception aborts the run. -/
def processEntries (ft : FeedType) (fs : FeedSource) (cfg : FeedConfig) :
    List XmlElem → Except PyError (List Post)
  | [] => .ok []
  | e :: rest =>
    if shouldInclude cfg e then do
      let p ← extractPost ft fs e
      let ps ← processEntries ft fs cfg rest
      pure (p :: ps)
    else processEntries ft fs cfg rest

/-- One iteration of the feed loop: detect the dialect, extract the feed
source, back-fill `configname`, then process the entries. -/
def processFeed (fi : FeedInput) : Except PyError (List Post) := do
  let tfs ← detectFeed fi.doc
  let fs := backfillConfigname tfs.2 fi.config.name
  processEntries tfs.1 fs fi.config (feedEntries fi.doc)

/-- The whole feed loop: posts of all feeds concatenated in configured
order; the first exception aborts the run (the source has no handler). -/
def collectPosts : List FeedInput → Except PyError (List Post)
  | [] => .ok []
  | fi :: rest => do
    let ps ← processFeed fi
    let later ← collectPosts rest
    pure (ps ++ later)

/-- The sort key of line 223: `datetime.datetime.fromisoformat(x.published)`.
`fromisoformat(None)` raises `TypeError`, an unparseable string raises
`ValueError`. -/
def postSortKey (p : Post) : Except PyError PyDateTime :=
  match p.published with
  | none => .error .typeError
  | some s =>
    match fromisoformat s with
    | some dt => .ok dt
    | none => .error .valueError

/-- The instant a post's parsed sort key denotes; the default branch is
unreachable whenever the surrounding sort succeeded. -/
def keyInstant (p : Post) : Int :=
  match postSortKey p with
  | .ok dt => dt.instantSeconds
  | .error _ => 0

/-- The comparison Python's sort performs on the parsed keys. -/
def postRel (a b : Post) : Prop := keyInstant a ≤ keyInstant b

instance : DecidableRel postRel := fun a b => Int.decLe (keyInstant a) (keyInstant b)

instance : IsTotal Post postRel := ⟨fun _ _ => Int.le_total _ _⟩

instance : IsTrans Post postRel := ⟨fun _ _ _ => Int.le_trans⟩

/-- Models lines 223-224: every `published` is parsed (any failure raises),
comparing a naive with an aware key raises `TypeError`, and the list is
stably sorted ascending and then reversed.  Python's sort is stable, so it
agrees with `List.insertionSort` for this total preorder. -/
def sortPosts (posts : List Post) : Except PyError (List Post) := do
  let keys ← posts.mapM postSortKey
  if (keys.any fun k => k.tzOffset.isSome) && (keys.any fun k => k.tzOffset.isNone) then
    .error .typeError
  else
    .ok (List.insertionSort postRel posts).reverse

/-- The aggregation pipeline of `main`: collect every configured feed's
accepted posts, then sort the combined collection. -/
def aggregatePosts (feeds : List FeedInput) : Except PyError (List Post) := do
  let l ← collectPosts feeds
  sortPosts l

/-! ### Concrete fixtures

Small feeds used below to instantiate hypotheses and to exhibit
counterexamples.  They are well-formed per the dialects' required fields
except where a field is deliberately omitted. -/

/-- A leaf element carrying only text. -/
def textEl (t txt : String) : XmlElem := .mk t [] (some txt) []

/-- An atom link element carrying an `href` attribute. -/
def linkEl (href : String) : XmlElem := .mk "atom:link" [("href", href)] none []

/-- A complete atom entry with the given id, title and published date. -/
def atomEntry (idS titleS pubS : String) : XmlElem :=
  .mk "atom:entry" [] none
    [textEl "atom:title" titleS, textEl "atom:published" pubS,
     textEl "atom:id" idS, linkEl ("http://example.com/" ++ idS)]

/-- An atom feed document holding the given entries. -/
def atomDoc (entries : List XmlElem) : XmlElem :=
  .mk "atom:feed" [] none
    ([textEl "atom:title" "Feed", textEl "atom:updated" "2024-10-01T00:00:00Z",
      linkEl "http://example.com/", textEl "atom:id" "urn:feed"] ++ entries)

/-- A feed configuration with no policies. -/
def cfgPlain (nm : String) : FeedConfig := { name := nm }

/-- The `FeedSource` the atom fixture document extracts to, after the
`configname` back-fill with feed name `f1`. -/
def fixtureSource : FeedSource :=
  { id_ := some "urn:feed", title := some "Feed", link := some "http://example.com/",
    author := some { configname := some "f1" }, updated := some "2024-10-01T00:00:00Z" }

/-- An atom feed with two entries sharing one `published` instant. -/
def tieFeed : FeedInput :=
  ⟨cfgPlain "f1",
   atomDoc [atomEntry "a" "A" "2024-10-02T15:00:00Z",
            atomEntry "b" "B" "2024-10-02T15:00:00Z"]⟩

def tiePostA : Post :=
  { title := some "A", published := some "2024-10-02T15:00:00Z", id_ := some "a",
    link := some "http://example.com/a", source := fixtureSource }

def tiePostB : Post :=
  { title := some "B", published := some "2024-10-02T15:00:00Z", id_ := some "b",
    link := some "http://example.com/b", source := fixtureSource }

/-- A document whose root is neither `rss` nor an atom `feed`. -/
def badFeed : FeedInput := ⟨cfgPlain "bad", .mk "html" [] none []⟩

/-- A well-formed single-entry atom feed (the "other configured feed"). -/
def goodFeed : FeedInput :=
  ⟨cfgPlain "f1", atomDoc [atomEntry "g" "G" "2024-10-04T12:00:00Z"]⟩

def goodPost : Post :=
  { title := some "G", published := some "2024-10-04T12:00:00Z", id_ := some "g",
    link := some "http://example.com/g", source := fixtureSource }

/-- An atom entry missing its required `atom:id`. -/
def noIdEntry : XmlElem :=
  .mk "atom:entry" [] none
    [textEl "atom:title" "X", textEl "atom:published" "2024-10-02T15:00:00Z",
     linkEl "http://example.com/x"]

/-- A feed whose first entry lacks `atom:id` and whose second is complete. -/
def c4Feed : FeedInput :=
  ⟨cfgPlain "f1", atomDoc [noIdEntry, atomEntry "ok" "OK" "2024-10-05T00:00:00Z"]⟩

/-- The same feed without the malformed entry. -/
def c4GoodOnlyFeed : FeedInput :=
  ⟨cfgPlain "f1", atomDoc [atomEntry "ok" "OK" "2024-10-05T00:00:00Z"]⟩

def c4GoodPost : Post :=
  { title := some "OK", published := some "2024-10-05T00:00:00Z", id_ := some "ok",
    link := some "http://example.com/ok", source := fixtureSource }

/-- An atom feed whose entry carries an ISO date with a numeric offset. -/
def offsetFeed : FeedInput :=
  ⟨cfgPlain "f1", atomDoc [atomEntry "z" "Z" "2024-10-02T15:00:00+00:00"]⟩

def offsetPost : Post :=
  { title := some "Z", published := some "2024-10-02T15:00:00+00:00", id_ := some "z",
    link := some "http://example.com/z", source := fixtureSource }

/-- An entry carrying one category element with text `tech`. -/
def entryTech : XmlElem :=
  .mk "atom:entry" [] none [.mk "category" [] (some "tech") []]

/-- An entry whose only category text is `news`. -/
def entryNews : XmlElem :=
  .mk "atom:entry" [] none [.mk "category" [] (some "news") []]

/-- An RSS item with a `description` but no `content:encoded`. -/
def rssItemPlain : XmlElem :=
  .mk "item" [] none
    [textEl "title" "R", textEl "pubDate" "Wed, 02 Oct 2024 15:00:00 GMT",
     textEl "description" "D", textEl "guid" "urn:r", textEl "link" "http://example.com/r"]

/-- An RSS item with both `content:encoded` and `description`. -/
def rssItemEncoded : XmlElem :=
  .mk "item" [] none
    [textEl "title" "R2", textEl "pubDate" "Wed, 02 Oct 2024 16:30:00 GMT",
     textEl "description" "D2", textEl "content:encoded" "C2",
     textEl "guid" "urn:r2", textEl "link" "http://example.com/r2"]

/-- The post `rssItemPlain` extracts to (source `fixtureSource`). -/
def rssPlainPost : Post :=
  { title := some "R", published := some "2024-10-02T15:00:00Z", id_ := some "urn:r",
    link := some "http://example.com/r", source := fixtureSource, summary := none,
    content := some "D" }

/-- The post `rssItemEncoded` extracts to (source `fixtureSource`). -/
def rssEncodedPost : Post :=
  { title := some "R2", published := some "2024-10-02T16:30:00Z", id_ := some "urn:r2",
    link := some "http://example.com/r2", source := fixtureSource, summary := some "D2",
    content := some "C2" }

/-- A feed whose only configured policy is an empty category list. -/
def emptyPolicyFeed : FeedInput :=
  ⟨{ name := "f1", category := some [] },
   atomDoc [atomEntry "a" "A" "2024-10-02T15:00:00Z"]⟩

/-- A configuration carrying both a category and a posts policy. -/
def cfgBoth : FeedConfig :=
  { name := "f1", category := some [[("text", "tech")]],
    posts := some [[("atom:title", "T")]] }

/-! ### Helper lemmas -/

@[simp] theorem ofOpt_none (e : PyError) : ofOpt (α := α) e none = .error e := rfl

@[simp] theorem ofOpt_some (e : PyError) (a : α) : ofOpt e (some a) = .ok a := rfl

@[simp] theorem except_ok_bind (a : α) (f : α → Except PyError β) :
    (Except.ok a >>= f) = f a := rfl

@[simp] theorem except_error_bind (e : PyError) (f : α → Except PyError β) :
    ((Except.error e : Except PyError α) >>= f) = .error e := rfl

@[simp] theorem except_pure_eq (a : α) : (pure a : Except PyError α) = .ok a := rfl

/-- The character six positions from the end of `cs ++ [c, a, b, d, m, n]`
is `c`. -/
theorem getElem_append_sub6 (cs : List Char) (c a b d m n : Char) :
    (cs ++ [c, a, b, d, m, n])[(cs ++ [c, a, b, d, m, n]).length - 6]? = some c := by
  have hl : (cs ++ [c, a, b, d, m, n]).length = cs.length + 6 := by simp
  rw [hl, Nat.add_sub_cancel, List.getElem?_append_right (Nat.le_refl _)]
  simp

/-- The character three positions from the end of `cs ++ [c, a, b, d, m, n]`
is `d`. -/
theorem getElem_append_sub3 (cs : List Char) (c a b d m n : Char) :
    (cs ++ [c, a, b, d, m, n])[(cs ++ [c, a, b, d, m, n]).length - 3]? = some d := by
  have hl : (cs ++ [c, a, b, d, m, n]).length = cs.length + 6 := by simp
  have h3 : cs.length + 6 - 3 = cs.length + 3 := by omega
  rw [hl, h3, List.getElem?_append_right (by omega)]
  have h0 : cs.length + 3 - cs.length = 3 := by omega
  rw [h0]
  rfl

/-- Stripping behavior on a `+HH:MM`-shaped suffix: the suffix is removed. -/
theorem stripPlusOffset_plus (cs : List Char) (h1 h2 m1 m2 : Char) :
    stripPlusOffset (cs ++ ['+', h1, h2, ':', m1, m2]) = cs := by
  unfold stripPlusOffset
  rw [if_pos ⟨getElem_append_sub6 cs '+' h1 h2 ':' m1 m2,
              getElem_append_sub3 cs '+' h1 h2 ':' m1 m2⟩]
  have hl : (cs ++ ['+', h1, h2, ':', m1, m2]).length = cs.length + 6 := by simp
  rw [hl, Nat.add_sub_cancel]
  exact List.take_left cs _

/-- Stripping behavior on a suffix not starting with `+`: nothing changes. -/
theorem stripPlusOffset_other (cs : List Char) (c h1 h2 m1 m2 : Char) (hc : c ≠ '+') :
    stripPlusOffset (cs ++ [c, h1, h2, ':', m1, m2]) = cs ++ [c, h1, h2, ':', m1, m2] := by
  unfold stripPlusOffset
  rw [if_neg (fun hcond => by
    have := (getElem_append_sub6 cs c h1 h2 ':' m1 m2).symm.trans hcond.1
    exact hc (Option.some.inj this))]

/-- C2 (corrected): the normalizer strips a six-character suffix only when it
begins with `+` (and has `:` third from the end): a `+HH:MM` suffix is
removed and `Z` is appended (unless the remainder already ends in `Z`),
while a `-HH:MM` suffix is left in place and `Z` is appended after it; on
the spec's example a `+00:00` suffix becomes `Z`. -/
theorem isoformat_to_rfc3339_offset_suffixes
    (cs : List Char) (h1 h2 m1 m2 : Char) (hm2 : m2.isDigit = true) :
    (isoformat_to_rfc3339 ⟨cs ++ ['+', h1, h2, ':', m1, m2]⟩
       = some (if cs.getLast? = some 'Z' then (⟨cs⟩ : String) else ⟨cs ++ ['Z']⟩))
    ∧ (isoformat_to_rfc3339 ⟨cs ++ ['-', h1, h2, ':', m1, m2]⟩
       = some ⟨(cs ++ ['-', h1, h2, ':', m1, m2]) ++ ['Z']⟩)
    ∧ isoformat_to_rfc3339 "2024-10-02T15:00:00+00:00" = some "2024-10-02T15:00:00Z" := by
  refine ⟨?_, ?_, by decide⟩
  · unfold isoformat_to_rfc3339
    have hlen : (⟨cs ++ ['+', h1, h2, ':', m1, m2]⟩ : String).data.length = cs.length + 6 := by
      simp
    rw [if_neg (by rw [hlen]; omega)]
    have hstrip : stripPlusOffset (⟨cs ++ ['+', h1, h2, ':', m1, m2]⟩ : String).data = cs :=
      stripPlusOffset_plus cs h1 h2 m1 m2
    rw [hstrip]
    unfold ensureZ
    split
    · rfl
    · rfl
  · unfold isoformat_to_rfc3339
    have hlen : (⟨cs ++ ['-', h1, h2, ':', m1, m2]⟩ : String).data.length = cs.length + 6 := by
      simp
    rw [if_neg (by rw [hlen]; omega)]
    have hstrip : stripPlusOffset (⟨cs ++ ['-', h1, h2, ':', m1, m2]⟩ : String).data
        = cs ++ ['-', h1, h2, ':', m1, m2] :=
      stripPlusOffset_other cs '-' h1 h2 m1 m2 (by decide)
    rw [hstrip]
    unfold ensureZ
    rw [if_neg (fun hc => by
      rw [List.getLast?_append_of_ne_nil _ (by simp)] at hc
      have hm : m2 = 'Z' := Option.some.inj hc
      rw [hm] at hm2
      exact absurd hm2 (by decide))]

/-- C2 counterexample: a `-HH:MM` offset suffix is not stripped; the
normalizer returns the input with `Z` appended rather than replacing the
suffix with `Z`. -/
theorem isoformat_to_rfc3339_minus_not_stripped :
    isoformat_to_rfc3339 "2024-10-02T15:00:00-05:00" = some "2024-10-02T15:00:00-05:00Z"
    ∧ isoformat_to_rfc3339 "2024-10-02T15:00:00-05:00" ≠ some "2024-10-02T15:00:00Z" := by
  exact ⟨rfl, by decide⟩

/-- C2 witness: the amended statement instantiated at the wall clock
`2024-10-02T15:00:00` and the offset digits `05:00`. -/
theorem isoformat_to_rfc3339_offset_suffixes_witness :
    ('0'.isDigit = true)
    ∧ ((isoformat_to_rfc3339 ⟨"2024-10-02T15:00:00".data ++ ['+', '0', '5', ':', '0', '0']⟩
         = some (if "2024-10-02T15:00:00".data.getLast? = some 'Z' then
             (⟨"2024-10-02T15:00:00".data⟩ : String)
           else ⟨"2024-10-02T15:00:00".data ++ ['Z']⟩))
       ∧ (isoformat_to_rfc3339 ⟨"2024-10-02T15:00:00".data ++ ['-', '0', '5', ':', '0', '0']⟩
         = some ⟨("2024-10-02T15:00:00".data ++ ['-', '0', '5', ':', '0', '0']) ++ ['Z']⟩)
       ∧ isoformat_to_rfc3339 "2024-10-02T15:00:00+00:00" = some "2024-10-02T15:00:00Z") :=
  ⟨by decide, isoformat_to_rfc3339_offset_suffixes "2024-10-02T15:00:00".data '0' '5' '0' '0'
    (by decide)⟩

/-- C7 (confirmed): a timestamp already in the canonical
`YYYY-MM-DDTHH:MM:SSZ` form passes through the normalizer unchanged. -/
theorem isoformat_to_rfc3339_canonical_fixed (s : String)
    (h : isCanonicalTimestamp s = true) : isoformat_to_rfc3339 s = some s := by
  obtain ⟨d⟩ := s
  unfold isCanonicalTimestamp at h
  split at h
  next y1 y2 y3 y4 mo1 mo2 d1 d2 hr1 hr2 mi1 mi2 sc1 sc2 heq =>
    have hd : d = [y1, y2, y3, y4, '-', mo1, mo2, '-', d1, d2, 'T',
        hr1, hr2, ':', mi1, mi2, ':', sc1, sc2, 'Z'] := heq
    subst hd
    simp only [Bool.and_eq_true, and_assoc] at h
    obtain ⟨hy1, hy2, hy3, hy4, hmo1, hmo2, hd1, hd2, hh1, hh2, hmi1, hmi2, hs1, hs2⟩ := h
    unfold isoformat_to_rfc3339
    rw [if_neg (by simp)]
    unfold stripPlusOffset
    rw [if_neg (fun hc => by
      have h14 : ([y1, y2, y3, y4, '-', mo1, mo2, '-', d1, d2, 'T',
          hr1, hr2, ':', mi1, mi2, ':', sc1, sc2, 'Z'] : List Char).length - 6 = 14 := by rfl
      rw [h14] at hc
      have h14v : ([y1, y2, y3, y4, '-', mo1, mo2, '-', d1, d2, 'T',
          hr1, hr2, ':', mi1, mi2, ':', sc1, sc2, 'Z'] : List Char)[14]? = some mi1 := rfl
      have : mi1 = '+' := Option.some.inj (h14v.symm.trans hc.1)
      rw [this] at hmi1
      exact absurd hmi1 (by decide))]
    unfold ensureZ
    rw [if_pos (by rfl)]
  next =>
    exact absurd h (by simp)

/-- C7 witness: the canonical example timestamp is fixed by the
normalizer. -/
theorem isoformat_to_rfc3339_canonical_fixed_witness :
    isCanonicalTimestamp "2024-10-02T15:00:00Z" = true
    ∧ isoformat_to_rfc3339 "2024-10-02T15:00:00Z" = some "2024-10-02T15:00:00Z" :=
  ⟨by decide, isoformat_to_rfc3339_canonical_fixed "2024-10-02T15:00:00Z" (by decide)⟩

/-- C5 (confirmed): the category filter accepts exactly when some spec has
all its key/value pairs matching one and the same category element, and on
the spec's example policy it accepts a `tech` category and rejects a feed
whose only category text is `news`. -/
theorem matches_category_semantics :
    (∀ (spec : Policy) (entry : XmlElem),
      matches_category (some spec) entry = true ↔
        ∃ allowed ∈ spec, ∃ postcat ∈ categoryElems entry,
          ∀ kv ∈ allowed, pairMatches postcat kv = true)
    ∧ matches_category (some [[("text", "tech")]]) entryTech = true
    ∧ matches_category (some [[("text", "tech")]]) entryNews = false := by
  refine ⟨fun spec entry => ?_, by decide, by decide⟩
  simp [matches_category, List.any_eq_true, List.all_eq_true]

/-- C6 (confirmed): with no policies configured every entry is included, and
with both configured inclusion is exactly the disjunction of the two
matchers. -/
theorem shouldInclude_policy_modes (cfg : FeedConfig) (entry : XmlElem) :
    (cfg.category = none → cfg.posts = none → shouldInclude cfg entry = true)
    ∧ (∀ c p, cfg.category = some c → cfg.posts = some p →
        (shouldInclude cfg entry = true ↔
          (matches_category (some c) entry = true ∨ matches_posts (some p) entry = true))) := by
  constructor
  · intro h1 h2
    simp [shouldInclude, h1, h2]
  · intro c p h1 h2
    simp [shouldInclude, h1, h2]

/-- C6 witness: the two modes instantiated, with both policies configured on
the `tech` entry and no policies on the same entry. -/
theorem shouldInclude_policy_modes_witness :
    (cfgBoth.category = some [[("text", "tech")]]
      ∧ cfgBoth.posts = some [[("atom:title", "T")]]
      ∧ (shouldInclude cfgBoth entryTech = true ↔
          (matches_category (some [[("text", "tech")]]) entryTech = true
            ∨ matches_posts (some [[("atom:title", "T")]]) entryTech = true)))
    ∧ ((cfgPlain "f1").category = none ∧ (cfgPlain "f1").posts = none
      ∧ shouldInclude (cfgPlain "f1") entryTech = true) :=
  ⟨⟨rfl, rfl, (shouldInclude_policy_modes cfgBoth entryTech).2 _ _ rfl rfl⟩,
   ⟨rfl, rfl, (shouldInclude_policy_modes (cfgPlain "f1") entryTech).1 rfl rfl⟩⟩

/-- C10 support: when every entry is excluded the entry loop returns an
empty list. -/
theorem processEntries_all_excluded (ft : FeedType) (fs : FeedSource) (cfg : FeedConfig)
    (hall : ∀ e, shouldInclude cfg e = false) :
    ∀ es, processEntries ft fs cfg es = .ok [] := by
  intro es
  induction es with
  | nil => rfl
  | cons e rest ih => simp [processEntries, hall e, ih]

/-- C10 (confirmed): an empty policy list does not mean include-all; it
matches no entry, and a feed configured only with empty policy lists
contributes no posts. -/
theorem emptyPolicy_contributes_nothing :
    (∀ (cfg : FeedConfig) (entry : XmlElem),
      (cfg.category = some [] ∨ cfg.category = none) →
      (cfg.posts = some [] ∨ cfg.posts = none) →
      ¬(cfg.category = none ∧ cfg.posts = none) →
      shouldInclude cfg entry = false)
    ∧ (∀ fi : FeedInput,
      (fi.config.category = some [] ∨ fi.config.category = none) →
      (fi.config.posts = some [] ∨ fi.config.posts = none) →
      ¬(fi.config.category = none ∧ fi.config.posts = none) →
      ∀ l, processFeed fi = .ok l → l = []) := by
  have hmain : ∀ (cfg : FeedConfig) (entry : XmlElem),
      (cfg.category = some [] ∨ cfg.category = none) →
      (cfg.posts = some [] ∨ cfg.posts = none) →
      ¬(cfg.category = none ∧ cfg.posts = none) →
      shouldInclude cfg entry = false := by
    intro cfg entry hc hp hnot
    rcases hc with hc | hc <;> rcases hp with hp | hp
    · simp [shouldInclude, hc, hp, matches_category, matches_posts]
    · simp [shouldInclude, hc, hp, matches_category, matches_posts]
    · simp [shouldInclude, hc, hp, matches_category, matches_posts]
    · exact absurd ⟨hc, hp⟩ hnot
  refine ⟨hmain, fun fi hc hp hnot l hok => ?_⟩
  unfold processFeed at hok
  cases hdet : detectFeed fi.doc with
  | error e => rw [hdet] at hok; simp at hok
  | ok tfs =>
    rw [hdet] at hok
    simp only [except_ok_bind] at hok
    rw [processEntries_all_excluded _ _ _ (fun e => hmain fi.config e hc hp hnot)] at hok
    exact (Except.ok.inj hok).symm

/-- C10 witness: the fixture feed configured with an empty category policy
list yields no posts. -/
theorem emptyPolicy_contributes_nothing_witness :
    (emptyPolicyFeed.config.category = some [] ∨ emptyPolicyFeed.config.category = none)
    ∧ (emptyPolicyFeed.config.posts = some [] ∨ emptyPolicyFeed.config.posts = none)
    ∧ ¬(emptyPolicyFeed.config.category = none ∧ emptyPolicyFeed.config.posts = none)
    ∧ processFeed emptyPolicyFeed = .ok []
    ∧ ([] : List Post) = [] :=
  ⟨Or.inl rfl, Or.inr rfl, by decide, rfl,
   emptyPolicy_contributes_nothing.2 emptyPolicyFeed (Or.inl rfl) (Or.inr rfl) (by decide) [] rfl⟩

/-- C9 (confirmed): an extracted RSS post's `summary` is populated (from
`description`) only when `content:encoded` is present; when `content:encoded`
is absent, `description` becomes the post's `content` and `summary` stays
unset. -/
theorem rss_summary_content_fallback (src : FeedSource) (entry : XmlElem) (p : Post)
    (h : extract_rss_post src entry = .ok p) :
    (entry.find "content:encoded" = none →
       p.summary = none ∧ ∃ de, entry.find "description" = some de ∧ p.content = de.text)
    ∧ (∀ ce, entry.find "content:encoded" = some ce →
       p.content = ce.text ∧ p.summary = (entry.find "description").bind XmlElem.text) := by
  unfold extract_rss_post at h
  cases hT : entry.find "title" <;> rw [hT] at h
  case none => simp at h
  case some titleEl =>
  simp only [ofOpt_some, except_ok_bind] at h
  cases hP : entry.find "pubDate" <;> rw [hP] at h
  case none => simp at h
  case some pubEl =>
  simp only [ofOpt_some, except_ok_bind] at h
  cases hPT : pubEl.text <;> rw [hPT] at h
  case none => simp at h
  case some pubText =>
  simp only [ofOpt_some, except_ok_bind] at h
  cases hDT : parsedate_to_datetime pubText <;> rw [hDT] at h
  case none => simp at h
  case some dt =>
  simp only [ofOpt_some, except_ok_bind] at h
  cases hCE : entry.find "content:encoded" <;> rw [hCE] at h
  case none =>
    cases hDE : entry.find "description" <;> rw [hDE] at h
    case none => simp at h
    case some de =>
    simp only [ofOpt_some, except_ok_bind, except_pure_eq] at h
    cases hG : entry.find "guid" <;> rw [hG] at h
    case none => simp at h
    case some guidEl =>
    simp only [ofOpt_some, except_ok_bind] at h
    cases hL : entry.find "link" <;> rw [hL] at h
    case none => simp at h
    case some linkEl =>
    simp only [ofOpt_some, except_ok_bind, Except.ok.injEq] at h
    subst h
    exact ⟨fun _ => ⟨rfl, de, rfl, rfl⟩, fun ce hce => nomatch hce⟩
  case some ce =>
    simp only [ofOpt_some, except_ok_bind, except_pure_eq] at h
    cases hG : entry.find "guid" <;> rw [hG] at h
    case none => simp at h
    case some guidEl =>
    simp only [ofOpt_some, except_ok_bind] at h
    cases hL : entry.find "link" <;> rw [hL] at h
    case none => simp at h
    case some linkEl =>
    simp only [ofOpt_some, except_ok_bind, Except.ok.injEq] at h
    subst h
    constructor
    · intro hnone
      exact absurd hnone (by simp)
    · intro ce' hce'
      cases hce'
      exact ⟨rfl, rfl⟩

/-- Dialect detection on a root that is neither `rss` nor an atom `feed`
fails the source's assertion. -/
theorem detectFeed_assert (doc : XmlElem) (h1 : doc.tag ≠ "rss")
    (h2 : doc.tag ≠ "atom:feed") : detectFeed doc = .error .assertionError := by
  unfold detectFeed
  rw [if_neg h1, if_neg h2]

/-- A feed with an unknown root makes its whole iteration error. -/
theorem processFeed_unknown_root (fi : FeedInput) (h1 : fi.doc.tag ≠ "rss")
    (h2 : fi.doc.tag ≠ "atom:feed") : processFeed fi = .error .assertionError := by
  unfold processFeed
  rw [detectFeed_assert fi.doc h1 h2]
  rfl

/-- An erroring feed anywhere in the batch makes the whole run error: there
is no handler, so no feed after it is processed and nothing is emitted. -/
theorem collectPosts_error_mem (l1 l2 : List FeedInput) (fi : FeedInput)
    (h : ∃ e, processFeed fi = .error e) :
    ∃ e, collectPosts (l1 ++ fi :: l2) = .error e := by
  induction l1 with
  | nil =>
    obtain ⟨e, he⟩ := h
    exact ⟨e, by simp [collectPosts, he]⟩
  | cons g rest ih =>
    cases hg : processFeed g with
    | error e => exact ⟨e, by simp [collectPosts, hg]⟩
    | ok ps =>
      obtain ⟨e, he⟩ := ih
      exact ⟨e, by simp [collectPosts, hg, he]⟩

/-- A collection error is an aggregation error. -/
theorem aggregatePosts_error (feeds : List FeedInput) (e : PyError)
    (h : collectPosts feeds = .error e) : aggregatePosts feeds = .error e := by
  simp [aggregatePosts, h]

/-- C3 (corrected): a feed whose document matches neither the RSS nor the
Atom root shape fails `assert(feedtype is not None)`, and the failure is
fatal to the whole batch: the run errors and no feed contributes posts
(processing does not continue). -/
theorem unknown_feed_type_fatal (l1 l2 : List FeedInput) (fi : FeedInput)
    (h1 : fi.doc.tag ≠ "rss") (h2 : fi.doc.tag ≠ "atom:feed") :
    (∃ e, collectPosts (l1 ++ fi :: l2) = .error e)
    ∧ (∃ e, aggregatePosts (l1 ++ fi :: l2) = .error e) := by
  obtain ⟨e, he⟩ := collectPosts_error_mem l1 l2 fi
    ⟨.assertionError, processFeed_unknown_root fi h1 h2⟩
  exact ⟨⟨e, he⟩, ⟨e, aggregatePosts_error _ e he⟩⟩

/-- C3 counterexample: with a bad-rooted feed followed by a well-formed atom
feed, the run returns `AssertionError` — the second feed contributes nothing,
although on its own it yields a post. -/
theorem unknown_feed_type_fatal_cex :
    aggregatePosts [badFeed, goodFeed] = .error .assertionError
    ∧ processFeed goodFeed = .ok [goodPost]
    ∧ aggregatePosts [goodFeed] = .ok [goodPost] := ⟨rfl, rfl, rfl⟩

/-- C3 witness: the amended statement instantiated on the fixture batch. -/
theorem unknown_feed_type_fatal_witness :
    badFeed.doc.tag ≠ "rss" ∧ badFeed.doc.tag ≠ "atom:feed"
    ∧ ((∃ e, collectPosts ([] ++ badFeed :: [goodFeed]) = .error e)
       ∧ (∃ e, aggregatePosts ([] ++ badFeed :: [goodFeed]) = .error e)) :=
  ⟨by decide, by decide,
   unknown_feed_type_fatal [] [goodFeed] badFeed (by decide) (by decide)⟩

/-- An atom entry missing any required field (title, a published or updated
date, id, link) makes its extraction raise. -/
theorem extract_atom_post_missing (fs : FeedSource) (entry : XmlElem)
    (h : entry.find "atom:title" = none
      ∨ (entry.find "atom:published" = none ∧ entry.find "atom:updated" = none)
      ∨ entry.find "atom:id" = none
      ∨ entry.find "atom:link" = none) :
    ∃ e, extract_atom_post fs entry = .error e := by
  unfold extract_atom_post
  cases hT : entry.find "atom:title"
  case none => exact ⟨.attributeError, by simp⟩
  case some titleEl =>
  simp only [ofOpt_some, except_ok_bind]
  cases hP : entry.find "atom:published"
  case none =>
    cases hU : entry.find "atom:updated"
    case none => exact ⟨.attributeError, by simp⟩
    case some u =>
    simp only [ofOpt_some, except_ok_bind]
    cases hI : entry.find "atom:id"
    case none => exact ⟨.attributeError, by simp⟩
    case some idEl =>
    simp only [ofOpt_some, except_ok_bind]
    cases hL : entry.find "atom:link"
    case none => exact ⟨.attributeError, by simp⟩
    case some linkEl =>
    exfalso
    rcases h with h | ⟨hp, hu⟩ | h | h <;> simp_all
  case some p =>
    simp only [ofOpt_some, except_ok_bind]
    cases hI : entry.find "atom:id"
    case none => exact ⟨.attributeError, by simp⟩
    case some idEl =>
    simp only [ofOpt_some, except_ok_bind]
    cases hL : entry.find "atom:link"
    case none => exact ⟨.attributeError, by simp⟩
    case some linkEl =>
    exfalso
    rcases h with h | ⟨hp, hu⟩ | h | h <;> simp_all

/-- An RSS item missing any required field (title, pubDate, guid, link)
makes its extraction raise. -/
theorem extract_rss_post_missing (fs : FeedSource) (entry : XmlElem)
    (h : entry.find "title" = none ∨ entry.find "pubDate" = none
      ∨ entry.find "guid" = none ∨ entry.find "link" = none) :
    ∃ e, extract_rss_post fs entry = .error e := by
  unfold extract_rss_post
  cases hT : entry.find "title"
  case none => exact ⟨.attributeError, by simp⟩
  case some titleEl =>
  simp only [ofOpt_some, except_ok_bind]
  cases hP : entry.find "pubDate"
  case none => exact ⟨.attributeError, by simp⟩
  case some pubEl =>
  simp only [ofOpt_some, except_ok_bind]
  cases hPT : pubEl.text
  case none => exact ⟨.typeError, by simp⟩
  case some pubText =>
  simp only [ofOpt_some, except_ok_bind]
  cases hDT : parsedate_to_datetime pubText
  case none => exact ⟨.valueError, by simp⟩
  case some dt =>
  simp only [ofOpt_some, except_ok_bind]
  cases hCE : entry.find "content:encoded"
  case none =>
    cases hDE : entry.find "description"
    case none => exact ⟨.attributeError, by simp⟩
    case some de =>
    simp only [ofOpt_some, except_ok_bind, except_pure_eq]
    cases hG : entry.find "guid"
    case none => exact ⟨.attributeError, by simp⟩
    case some guidEl =>
    simp only [ofOpt_some, except_ok_bind]
    cases hL : entry.find "link"
    case none => exact ⟨.attributeError, by simp⟩
    case some linkEl =>
    exfalso
    rcases h with h | h | h | h <;> simp_all
  case some ce =>
    simp only [ofOpt_some, except_ok_bind, except_pure_eq]
    cases hG : entry.find "guid"
    case none => exact ⟨.attributeError, by simp⟩
    case some guidEl =>
    simp only [ofOpt_some, except_ok_bind]
    cases hL : entry.find "link"
    case none => exact ⟨.attributeError, by simp⟩
    case some linkEl =>
    exfalso
    rcases h with h | h | h | h <;> simp_all

/-- If an included entry's extraction raises, the entry loop raises. -/
theorem processEntries_error_of_bad (ft : FeedType) (fs : FeedSource) (cfg : FeedConfig)
    (entry : XmlElem) (hinc : shouldInclude cfg entry = true)
    (herr : ∃ e, extractPost ft fs entry = .error e) :
    ∀ es, entry ∈ es → ∃ e, processEntries ft fs cfg es = .error e := by
  intro es hmem
  induction es with
  | nil => cases hmem
  | cons a rest ih =>
    rcases List.mem_cons.mp hmem with rfl | hmem'
    · obtain ⟨e, he⟩ := herr
      exact ⟨e, by simp [processEntries, hinc, he]⟩
    · by_cases hai : shouldInclude cfg a = true
      · cases hext : extractPost ft fs a with
        | error e => exact ⟨e, by simp [processEntries, hai, hext]⟩
        | ok p =>
          obtain ⟨e, he⟩ := ih hmem'
          exact ⟨e, by simp [processEntries, hai, hext, he]⟩
      · obtain ⟨e, he⟩ := ih hmem'
        have hai' : shouldInclude cfg a = false := by
          exact Bool.not_eq_true _ ▸ Bool.of_not_eq_true hai
        exact ⟨e, by simp [processEntries, hai', he]⟩

/-- C4 (corrected): a required entry field missing does make the entry's
extraction fail, but there is no per-entry handler: the exception aborts the
entire run.  An atom entry missing title, both dates, id or link raises; an
RSS item missing title, pubDate, guid or link raises; an included entry of
an atom feed with a missing required field makes the whole feed iteration
raise; and any raising feed makes the whole batch error, so neither the
remaining entries of that feed nor any other feed's posts are emitted. -/
theorem missing_required_field_fatal :
    (∀ (fs : FeedSource) (entry : XmlElem),
      (entry.find "atom:title" = none
        ∨ (entry.find "atom:published" = none ∧ entry.find "atom:updated" = none)
        ∨ entry.find "atom:id" = none
        ∨ entry.find "atom:link" = none) →
      ∃ e, extract_atom_post fs entry = .error e)
    ∧ (∀ (fs : FeedSource) (entry : XmlElem),
      (entry.find "title" = none ∨ entry.find "pubDate" = none
        ∨ entry.find "guid" = none ∨ entry.find "link" = none) →
      ∃ e, extract_rss_post fs entry = .error e)
    ∧ (∀ (fi : FeedInput) (entry : XmlElem), fi.doc.tag = "atom:feed" →
      entry ∈ feedEntries fi.doc → shouldInclude fi.config entry = true →
      (entry.find "atom:title" = none
        ∨ (entry.find "atom:published" = none ∧ entry.find "atom:updated" = none)
        ∨ entry.find "atom:id" = none
        ∨ entry.find "atom:link" = none) →
      ∃ e, processFeed fi = .error e)
    ∧ (∀ (l1 l2 : List FeedInput) (fi : FeedInput),
      (∃ e, processFeed fi = .error e) →
      (∃ e, collectPosts (l1 ++ fi :: l2) = .error e)
        ∧ ∃ e, aggregatePosts (l1 ++ fi :: l2) = .error e) := by
  refine ⟨extract_atom_post_missing, extract_rss_post_missing, ?_, ?_⟩
  · intro fi entry htag hmem hinc hmiss
    unfold processFeed
    unfold detectFeed
    rw [if_neg (by rw [htag]; decide), if_pos htag]
    cases hsrc : extract_atom_feedsource fi.doc with
    | error e => exact ⟨e, by simp⟩
    | ok fs0 =>
      simp only [except_ok_bind]
      exact processEntries_error_of_bad .atom _ fi.config entry hinc
        (extract_atom_post_missing _ entry hmiss) _ hmem
  · intro l1 l2 fi herr
    obtain ⟨e, he⟩ := collectPosts_error_mem l1 l2 fi herr
    exact ⟨⟨e, he⟩, ⟨e, aggregatePosts_error _ e he⟩⟩

/-- C4 counterexample: a feed whose first entry lacks `atom:id` and whose
second entry is complete makes the whole run raise `AttributeError`; the
complete entry is not emitted, although the same feed without the malformed
entry yields exactly that post. -/
theorem missing_required_field_fatal_cex :
    collectPosts [c4Feed] = .error .attributeError
    ∧ aggregatePosts [c4Feed] = .error .attributeError
    ∧ processFeed c4GoodOnlyFeed = .ok [c4GoodPost] := ⟨rfl, rfl, rfl⟩

/-- C4 witness: the amended statement instantiated on the fixture feed whose
first entry lacks its `atom:id`. -/
theorem missing_required_field_fatal_witness :
    c4Feed.doc.tag = "atom:feed"
    ∧ noIdEntry ∈ feedEntries c4Feed.doc
    ∧ shouldInclude c4Feed.config noIdEntry = true
    ∧ noIdEntry.find "atom:id" = none
    ∧ (∃ e, processFeed c4Feed = .error e) := by
  have hmem : noIdEntry ∈ feedEntries c4Feed.doc := by
    unfold feedEntries c4Feed atomDoc noIdEntry
    simp [allElems, allElemsList, textEl, linkEl, atomEntry, XmlElem.tag]
  refine ⟨rfl, hmem, rfl, rfl, ?_⟩
  exact missing_required_field_fatal.2.2.1 c4Feed noIdEntry rfl hmem rfl
    (Or.inr (Or.inr (Or.inl rfl)))

/-- Digits below ten render as digit characters. -/
theorem digitChar_isDigit : ∀ m < 10, (Nat.digitChar m).isDigit = true := by decide

/-- The canonical-form check succeeds on any correctly punctuated 20-character
timestamp whose numeric positions hold digit characters. -/
theorem isCanonicalTimestamp_build (c1 c2 c3 c4 c5 c6 c7 c8 c9 c10 c11 c12 c13 c14 : Char)
    (h1 : c1.isDigit = true) (h2 : c2.isDigit = true) (h3 : c3.isDigit = true)
    (h4 : c4.isDigit = true) (h5 : c5.isDigit = true) (h6 : c6.isDigit = true)
    (h7 : c7.isDigit = true) (h8 : c8.isDigit = true) (h9 : c9.isDigit = true)
    (h10 : c10.isDigit = true) (h11 : c11.isDigit = true) (h12 : c12.isDigit = true)
    (h13 : c13.isDigit = true) (h14 : c14.isDigit = true) :
    isCanonicalTimestamp ⟨[c1, c2, c3, c4, '-', c5, c6, '-', c7, c8, 'T',
      c9, c10, ':', c11, c12, ':', c13, c14, 'Z']⟩ = true := by
  simp [isCanonicalTimestamp, h1, h2, h3, h4, h5, h6, h7, h8, h9, h10, h11, h12, h13, h14]

/-- Rendering an aware datetime and slicing off the six offset characters
leaves the zero-padded 19-character wall clock plus `Z`. -/
theorem isoformatSliceZ_aware (y mo d h mi s : Nat) (off : Int) :
    isoformatSliceZ ⟨y, mo, d, h, mi, s, some off⟩
      = ⟨[Nat.digitChar (y / 1000 % 10), Nat.digitChar (y / 100 % 10),
          Nat.digitChar (y / 10 % 10), Nat.digitChar (y % 10), '-',
          Nat.digitChar (mo / 10 % 10), Nat.digitChar (mo % 10), '-',
          Nat.digitChar (d / 10 % 10), Nat.digitChar (d % 10), 'T',
          Nat.digitChar (h / 10 % 10), Nat.digitChar (h % 10), ':',
          Nat.digitChar (mi / 10 % 10), Nat.digitChar (mi % 10), ':',
          Nat.digitChar (s / 10 % 10), Nat.digitChar (s % 10), 'Z']⟩ := rfl

/-- Slicing an aware datetime's rendering yields a canonical timestamp. -/
theorem isoformatSliceZ_aware_canonical (dt : PyDateTime)
    (hoff : dt.tzOffset.isSome = true) :
    isCanonicalTimestamp (isoformatSliceZ dt) = true := by
  obtain ⟨y, mo, d, h, mi, s, tz⟩ := dt
  cases tz with
  | none => simp at hoff
  | some off =>
    rw [isoformatSliceZ_aware]
    exact isCanonicalTimestamp_build _ _ _ _ _ _ _ _ _ _ _ _ _ _
      (digitChar_isDigit _ (Nat.mod_lt _ (by norm_num)))
      (digitChar_isDigit _ (Nat.mod_lt _ (by norm_num)))
      (digitChar_isDigit _ (Nat.mod_lt _ (by norm_num)))
      (digitChar_isDigit _ (Nat.mod_lt _ (by norm_num)))
      (digitChar_isDigit _ (Nat.mod_lt _ (by norm_num)))
      (digitChar_isDigit _ (Nat.mod_lt _ (by norm_num)))
      (digitChar_isDigit _ (Nat.mod_lt _ (by norm_num)))
      (digitChar_isDigit _ (Nat.mod_lt _ (by norm_num)))
      (digitChar_isDigit _ (Nat.mod_lt _ (by norm_num)))
      (digitChar_isDigit _ (Nat.mod_lt _ (by norm_num)))
      (digitChar_isDigit _ (Nat.mod_lt _ (by norm_num)))
      (digitChar_isDigit _ (Nat.mod_lt _ (by norm_num)))
      (digitChar_isDigit _ (Nat.mod_lt _ (by norm_num)))
      (digitChar_isDigit _ (Nat.mod_lt _ (by norm_num)))

/-- The sliced rendering always ends in `Z`. -/
theorem isoformatSliceZ_endsZ (dt : PyDateTime) :
    (isoformatSliceZ dt).data.getLast? = some 'Z' :=
  List.getLast?_concat _

/-- C8 (corrected): an RSS post's `published` is re-rendered from the parsed
`pubDate` — it always ends in `Z` and is canonical whenever the parsed date
carried a zone — but an atom post's `published` is copied verbatim from the
feed's `atom:published` (falling back to `atom:updated`) with no
normalization, so the final collection's values are canonical only when the
feed supplied them that way. -/
theorem published_provenance :
    (∀ (src : FeedSource) (entry : XmlElem) (p : Post),
      extract_rss_post src entry = .ok p →
      ∃ pubEl t dt, entry.find "pubDate" = some pubEl ∧ pubEl.text = some t
        ∧ parsedate_to_datetime t = some dt
        ∧ p.published = some (isoformatSliceZ dt)
        ∧ (isoformatSliceZ dt).data.getLast? = some 'Z'
        ∧ (dt.tzOffset.isSome = true → isCanonicalTimestamp (isoformatSliceZ dt) = true))
    ∧ (∀ (src : FeedSource) (entry : XmlElem) (p : Post),
      extract_atom_post src entry = .ok p →
      ∃ pubEl, (match entry.find "atom:published" with
          | some e => some e
          | none => entry.find "atom:updated") = some pubEl
        ∧ p.published = pubEl.text) := by
  constructor
  · intro src entry p h
    unfold extract_rss_post at h
    cases hT : entry.find "title" <;> rw [hT] at h
    case none => simp at h
    case some titleEl =>
    simp only [ofOpt_some, except_ok_bind] at h
    cases hP : entry.find "pubDate" <;> rw [hP] at h
    case none => simp at h
    case some pubEl =>
    simp only [ofOpt_some, except_ok_bind] at h
    cases hPT : pubEl.text <;> rw [hPT] at h
    case none => simp at h
    case some pubText =>
    simp only [ofOpt_some, except_ok_bind] at h
    cases hDT : parsedate_to_datetime pubText <;> rw [hDT] at h
    case none => simp at h
    case some dt =>
    simp only [ofOpt_some, except_ok_bind] at h
    refine ⟨pubEl, pubText, dt, rfl, hPT, hDT, ?_, isoformatSliceZ_endsZ dt,
      fun hoff => isoformatSliceZ_aware_canonical dt hoff⟩
    cases hCE : entry.find "content:encoded" <;> rw [hCE] at h
    case none =>
      cases hDE : entry.find "description" <;> rw [hDE] at h
      case none => simp at h
      case some de =>
      simp only [ofOpt_some, except_ok_bind, except_pure_eq] at h
      cases hG : entry.find "guid" <;> rw [hG] at h
      case none => simp at h
      case some guidEl =>
      simp only [ofOpt_some, except_ok_bind] at h
      cases hL : entry.find "link" <;> rw [hL] at h
      case none => simp at h
      case some linkEl =>
      simp only [ofOpt_some, except_ok_bind, Except.ok.injEq] at h
      subst h
      rfl
    case some ce =>
      simp only [ofOpt_some, except_ok_bind, except_pure_eq] at h
      cases hG : entry.find "guid" <;> rw [hG] at h
      case none => simp at h
      case some guidEl =>
      simp only [ofOpt_some, except_ok_bind] at h
      cases hL : entry.find "link" <;> rw [hL] at h
      case none => simp at h
      case some linkEl =>
      simp only [ofOpt_some, except_ok_bind, Except.ok.injEq] at h
      subst h
      rfl
  · intro src entry p h
    unfold extract_atom_post at h
    cases hT : entry.find "atom:title" <;> rw [hT] at h
    case none => simp at h
    case some titleEl =>
    simp only [ofOpt_some, except_ok_bind] at h
    cases hPub : (match entry.find "atom:published" with
        | some e => some e
        | none => entry.find "atom:updated") <;> rw [hPub] at h
    case none => simp at h
    case some pubEl =>
    simp only [ofOpt_some, except_ok_bind] at h
    cases hI : entry.find "atom:id" <;> rw [hI] at h
    case none => simp at h
    case some idEl =>
    simp only [ofOpt_some, except_ok_bind] at h
    cases hL : entry.find "atom:link" <;> rw [hL] at h
    case none => simp at h
    case some linkEl =>
    simp only [ofOpt_some, except_ok_bind, Except.ok.injEq] at h
    subst h
    exact ⟨pubEl, rfl, rfl⟩

/-- C8 counterexample: a successful run whose final collection contains a
post with a non-canonical `published` value, copied verbatim from the atom
feed. -/
theorem published_provenance_cex :
    aggregatePosts [offsetFeed] = .ok [offsetPost]
    ∧ offsetPost.published = some "2024-10-02T15:00:00+00:00"
    ∧ isCanonicalTimestamp "2024-10-02T15:00:00+00:00" = false := ⟨rfl, rfl, rfl⟩

/-- Stability of insertion sort on tie classes: the elements satisfying a
predicate that only selects mutually tied elements appear in the sorted list
exactly as they appeared in the input. -/
theorem insertionSort_filter_tied {α : Type} (r : α → α → Prop) [DecidableRel r]
    (p : α → Bool) (l : List α)
    (hp : ∀ a b, p a = true → p b = true → r a b) :
    (List.insertionSort r l).filter p = l.filter p := by
  have hpw : (l.filter p).Pairwise r :=
    List.pairwise_of_forall_mem_list fun a ha b hb =>
      hp a b (List.of_mem_filter ha) (List.of_mem_filter hb)
  have hsub : List.Sublist (l.filter p) (List.insertionSort r l) :=
    List.sublist_insertionSort hpw (List.filter_sublist l)
  have hff : (l.filter p).filter p = l.filter p :=
    List.filter_eq_self.mpr fun a ha => List.of_mem_filter ha
  have h2 : List.Sublist (l.filter p) ((List.insertionSort r l).filter p) := by
    have := hsub.filter p
    rwa [hff] at this
  have h3 : ((List.insertionSort r l).filter p).length = (l.filter p).length :=
    ((List.perm_insertionSort r l).filter p).length_eq
  exact (h2.eq_of_length h3.symm).symm

/-- A successful sort step is the stable ascending sort reversed. -/
theorem sortPosts_ok_shape (l out : List Post) (h : sortPosts l = .ok out) :
    out = (List.insertionSort postRel l).reverse := by
  unfold sortPosts at h
  cases hm : l.mapM postSortKey <;> rw [hm] at h
  case error e => simp at h
  case ok keys =>
  simp only [except_ok_bind] at h
  split at h
  · cases h
  · exact (Except.ok.inj h).symm

/-- C1 (corrected): a successful run's final collection is the collected
posts sorted by `published` descending, but equal-`published` posts appear
in the reverse of their input order (the source sorts ascending and then
reverses the whole list, which flips ties), not in their original order. -/
theorem aggregate_sorted_desc_ties_reversed (feeds : List FeedInput) (l out : List Post)
    (hc : collectPosts feeds = .ok l) (ha : aggregatePosts feeds = .ok out) :
    out.Pairwise (fun a b => keyInstant b ≤ keyInstant a)
    ∧ out.Perm l
    ∧ ∀ k : Int, out.filter (fun p => keyInstant p == k)
        = (l.filter (fun p => keyInstant p == k)).reverse := by
  have hs : sortPosts l = .ok out := by
    unfold aggregatePosts at ha
    rw [hc] at ha
    simpa using ha
  have hout := sortPosts_ok_shape l out hs
  subst hout
  refine ⟨?_, ?_, ?_⟩
  · rw [List.pairwise_reverse]
    exact List.sorted_insertionSort postRel l
  · exact (List.reverse_perm _).trans (List.perm_insertionSort postRel l)
  · intro k
    rw [List.filter_reverse]
    rw [insertionSort_filter_tied postRel _ l ?_]
    intro a b ha' hb'
    have h1 : keyInstant a = k := by simpa using ha'
    have h2 : keyInstant b = k := by simpa using hb'
    unfold postRel
    omega

/-- C1 counterexample: two tied posts come out in the reverse of their input
order, not their original order. -/
theorem aggregate_ties_reversed_cex :
    collectPosts [tieFeed] = .ok [tiePostA, tiePostB]
    ∧ tiePostA.published = tiePostB.published
    ∧ tiePostA ≠ tiePostB
    ∧ aggregatePosts [tieFeed] = .ok [tiePostB, tiePostA]
    ∧ ([tiePostB, tiePostA] : List Post) ≠ [tiePostA, tiePostB] :=
  ⟨rfl, rfl, by decide, rfl, by decide⟩

/-- C1 witness: the amended statement instantiated on the two-entry tie
fixture. -/
theorem aggregate_sorted_desc_ties_reversed_witness :
    collectPosts [tieFeed] = .ok [tiePostA, tiePostB]
    ∧ aggregatePosts [tieFeed] = .ok [tiePostB, tiePostA]
    ∧ (([tiePostB, tiePostA] : List Post).Pairwise
        (fun a b => keyInstant b ≤ keyInstant a)
       ∧ ([tiePostB, tiePostA] : List Post).Perm [tiePostA, tiePostB]
       ∧ ∀ k : Int, ([tiePostB, tiePostA] : List Post).filter (fun p => keyInstant p == k)
           = (([tiePostA, tiePostB] : List Post).filter (fun p => keyInstant p == k)).reverse) :=
  ⟨rfl, rfl, aggregate_sorted_desc_ties_reversed [tieFeed] [tiePostA, tiePostB]
    [tiePostB, tiePostA] rfl rfl⟩

/-- C9 witness: the fallback statement instantiated on an item without and
an item with `content:encoded`. -/
theorem rss_summary_content_fallback_witness :
    (extract_rss_post fixtureSource rssItemPlain = .ok rssPlainPost
      ∧ ((rssItemPlain.find "content:encoded" = none →
            rssPlainPost.summary = none
            ∧ ∃ de, rssItemPlain.find "description" = some de
                ∧ rssPlainPost.content = de.text)
         ∧ (∀ ce, rssItemPlain.find "content:encoded" = some ce →
            rssPlainPost.content = ce.text
            ∧ rssPlainPost.summary = (rssItemPlain.find "description").bind XmlElem.text)))
    ∧ (extract_rss_post fixtureSource rssItemEncoded = .ok rssEncodedPost
      ∧ ((rssItemEncoded.find "content:encoded" = none →
            rssEncodedPost.summary = none
            ∧ ∃ de, rssItemEncoded.find "description" = some de
                ∧ rssEncodedPost.content = de.text)
         ∧ (∀ ce, rssItemEncoded.find "content:encoded" = some ce →
            rssEncodedPost.content = ce.text
            ∧ rssEncodedPost.summary = (rssItemEncoded.find "description").bind XmlElem.text))) :=
  ⟨⟨rfl, rss_summary_content_fallback fixtureSource rssItemPlain rssPlainPost rfl⟩,
   ⟨rfl, rss_summary_content_fallback fixtureSource rssItemEncoded rssEncodedPost rfl⟩⟩

/-- C8 witness: the provenance statement instantiated on the plain RSS
item. -/
theorem published_provenance_witness :
    extract_rss_post fixtureSource rssItemPlain = .ok rssPlainPost
    ∧ (∃ pubEl t dt, rssItemPlain.find "pubDate" = some pubEl ∧ pubEl.text = some t
        ∧ parsedate_to_datetime t = some dt
        ∧ rssPlainPost.published = some (isoformatSliceZ dt)
        ∧ (isoformatSliceZ dt).data.getLast? = some 'Z'
        ∧ (dt.tzOffset.isSome = true → isCanonicalTimestamp (isoformatSliceZ dt) = true)) :=
  ⟨rfl, published_provenance.1 fixtureSource rssItemPlain rssPlainPost rfl⟩
